import Mathlib

/-!
Verification development for `ko_events.py`: a script that scrapes the
"UPCOMING EVENTS" panel of a web page and posts the parsed schedule to a
Discord webhook.  The pure parts of the script (countdown-text rendering,
item-to-pair conversion, embed-line formatting, webhook payload
construction) are embedded as executable Lean definitions; the effectful
parts (browser automation, the HTTP round trip) are modelled by explicit
step traces and oracle parameters.
-/

namespace KoEvents

/-- Constant `TITLE` of `ko_events.py`. -/
def TITLE : String := "KO4Fun — Upcoming Events"

/-- Footer text of the embed built by `post_webhook`. -/
def footerText : String := "Source: ko4fun.net • auto-updated by GitHub Actions"

/-- Plural suffix used by the f-strings of `hhmmss_to_text`:
the Python fragment is written `'s' if n != 1 else ''`. -/
def pluralS (n : Nat) : String := if n ≠ 1 then "s" else ""

/-- Python `str.strip()`: drop whitespace from both ends of the string. -/
def pyStrip (s : String) : String :=
  List.asString (((s.data.dropWhile Char.isWhitespace).reverse.dropWhile
    Char.isWhitespace).reverse)

/-- Embedding of `hhmmss_to_text(h, m, s)` (lines 24-34 of `ko_events.py`).
Python's `str(minutes)` on a non-negative int is `Nat.repr`; the parsed
`h`, `m`, `s` come from two-digit regex groups, hence are natural numbers,
so `minutes <= 0` is `minutes = 0`. -/
def hhmmss_to_text (h m s : Nat) : String :=
  let minutes := h * 60 + m + (if 30 ≤ s then 1 else 0)
  if minutes ≤ 0 then "NOW ACTIVE"
  else if minutes < 60 then Nat.repr minutes ++ " minute" ++ pluralS minutes
  else
    let hours := minutes / 60
    let mins := minutes % 60
    if mins = 0 then Nat.repr hours ++ " hour" ++ pluralS hours
    else Nat.repr hours ++ " hour" ++ pluralS hours ++ " "
         ++ Nat.repr mins ++ " minute" ++ pluralS mins

/-- One element of the `items` list that `page.evaluate` hands back to
Python in `scrape_events`: a record `{name, hhmmss, active}`.  A missing
`name` key is the empty string (Python `it.get("name","")`); `hhmmss` is
either absent/None or a matched `\d2:\d2:\d2` group, modelled as the
parsed triple (the string is non-empty, so Python truthiness is `Option`);
`active` is `bool(it.get("active"))`. -/
structure Item where
  name : String
  hhmmss : Option (Nat × Nat × Nat)
  active : Bool
deriving DecidableEq

/-- Embedding of the conversion loop of `scrape_events` (lines 119-134 of
`ko_events.py`): Python `it.get("name","").strip()` is `pyStrip`;
`if active` takes "NOW ACTIVE", `elif hhmmss` renders the countdown with
`hhmmss_to_text`, and the `else: continue` branch skips the item.  The
browser harvest that produces `items` is an input. -/
def scrape_events : List Item → List (String × String)
  | [] => []
  | it :: rest =>
    if it.active then (pyStrip it.name, "NOW ACTIVE") :: scrape_events rest
    else
      match it.hhmmss with
      | some (h, m, s) => (pyStrip it.name, hhmmss_to_text h m s) :: scrape_events rest
      | none => scrape_events rest

/-- Python `"\n".join(lines)` (and, degenerately, any `sep.join`). -/
def joinStr (sep : String) : List String → String
  | [] => ""
  | [l] => l
  | l :: ls => l ++ sep ++ joinStr sep ls

/-- One bullet line of `build_embed_lines`: the f-string
`f"• {name} : {status}"`. -/
def eventLine (p : String × String) : String := "• " ++ p.1 ++ " : " ++ p.2

/-- Embedding of `build_embed_lines(events)` (lines 136-140 of
`ko_events.py`). -/
def build_embed_lines (events : List (String × String)) : String :=
  if events.isEmpty then "No events found."
  else joinStr "\n" (events.map eventLine)

/-- Structured JSON values, enough to state the shape of the webhook
payload that `json.dumps` serialises. -/
inductive JVal where
  | str (s : String)
  | arr (elems : List JVal)
  | obj (fields : List (String × JVal))

/-- Field lookup in a JSON object (Python dict access). -/
def JVal.lookup (k : String) : JVal → Option JVal
  | .obj fields => (fields.find? (fun f => f.1 == k)).map (fun f => f.2)
  | _ => none

/-- An outgoing HTTP request as `urllib.request.Request` is constructed in
`post_webhook`; the body is kept structured rather than serialised. -/
structure Request where
  url : String
  method : String
  headers : List (String × String)
  body : JVal

/-- The `embed` dict built by `post_webhook` (lines 143-147): keys
`title`, `description` and `footer` (with a `text` field), nothing else. -/
def embedObj (description : String) : JVal :=
  .obj [("title", .str TITLE),
        ("description", .str description),
        ("footer", .obj [("text", .str footerText)])]

/-- Embedding of `post_webhook(webhook_url, description)` (lines 142-154):
the list of HTTP requests the call issues (exactly one POST with the
`{"embeds": [embed]}` payload); the response handling reads and discards
the body. -/
def post_webhook (webhook_url description : String) : List Request :=
  [{ url := webhook_url,
     method := "POST",
     headers := [("Content-Type", "application/json")],
     body := .obj [("embeds", .arr [embedObj description])] }]

/-- The description field of the single embed of a webhook request. -/
def Request.description (r : Request) : Option JVal :=
  match r.body.lookup "embeds" with
  | some (.arr [e]) => e.lookup "description"
  | _ => none

/-- A completed step of `main`'s pipeline, carrying the data it produced. -/
inductive MainStep where
  | scraped (events : List (String × String))
  | formatted (desc : String)
  | delivered (req : Request)

/-- Which pipeline stage a step belongs to. -/
inductive StepKind where
  | scrape
  | format
  | deliver
deriving DecidableEq

/-- Forget a step's data, keeping its stage. -/
def MainStep.kind : MainStep → StepKind
  | .scraped _ => .scrape
  | .formatted _ => .format
  | .delivered _ => .deliver

/-- What one run of the script produces: the pipeline steps that ran (in
order), everything the script printed to standard output, and the final
outcome (`error e` models an exception propagating out of `main`). -/
structure RunResult where
  trace : List MainStep
  stdout : List String
  outcome : Except String Unit

/-- Embedding of `main()` (lines 156-159 of `ko_events.py`) over two
oracles: `scrapeRes` is what the browser harvest yields (or the exception
`scrape_events` raises), and `postRes` is the webhook's response to the
posted description (or the `HTTPError` that `urlopen` raises).  The
script contains no `print` call and no `try`/`except`, so `stdout` is
empty in every branch and every exception propagates unchanged. -/
def main (webhookUrl : String) (scrapeRes : Except String (List Item))
    (postRes : String → Except String Unit) : RunResult :=
  match scrapeRes with
  | .error e => { trace := [], stdout := [], outcome := .error e }
  | .ok items =>
    let events := scrape_events items
    let desc := build_embed_lines (events.take 10)
    { trace := [.scraped events, .formatted desc]
        ++ (post_webhook webhookUrl desc).map MainStep.delivered,
      stdout := [],
      outcome := postRes desc }

/-- One awaited step of the browser session in `scrape_events`
(lines 41-117 of `ko_events.py`). -/
inductive ScrapeStep where
  | launchBrowser
  | newPage
  | gotoPage (url : String) (timeoutMs : Nat)
  | waitForText (pattern : String) (timeoutMs : Nat)
  | fixedDelay (ms : Nat)
  | evaluateItems
  | closeBrowser

/-- Whether a step is a fixed-duration delay (`asyncio.sleep` or
`page.wait_for_timeout`; the script has none). -/
def ScrapeStep.isFixedDelay : ScrapeStep → Bool
  | .fixedDelay _ => true
  | _ => false

/-- The awaited steps of `scrape_events`, in program order: launch the
headless browser, open a page, `goto` the event URL (60 s timeout), wait
for the text `UPCOMING EVENTS` to be present (60 s timeout), run the
harvesting `page.evaluate`, close the browser. -/
def scrape_events_steps (url : String) : List ScrapeStep :=
  [.launchBrowser, .newPage, .gotoPage url 60000,
   .waitForText "UPCOMING EVENTS" 60000, .evaluateItems, .closeBrowser]

/-- Total minutes as the spec describes the rounding of `hhmmss_to_text`:
`T = 60*h + m + (1 if s >= 30 else 0)`. -/
def totalMinutes (h m s : Nat) : Nat := 60 * h + m + (if 30 ≤ s then 1 else 0)

/-- The relative remaining-time texts the spec allows for a status:
`X minute(s)`, `H hour(s)`, or `H hour(s) M minute(s)`, with the minute
count below 60 and the singular form exactly at count 1. -/
def isRelativeTimeText (st : String) : Prop :=
  (∃ n, 1 ≤ n ∧ n < 60 ∧ st = Nat.repr n ++ " minute" ++ pluralS n) ∨
  (∃ hh, 1 ≤ hh ∧ st = Nat.repr hh ++ " hour" ++ pluralS hh) ∨
  (∃ hh mm, 1 ≤ hh ∧ 1 ≤ mm ∧ mm < 60 ∧
    st = Nat.repr hh ++ " hour" ++ pluralS hh ++ " "
         ++ Nat.repr mm ++ " minute" ++ pluralS mm)

/-!
## Helper lemmas
-/

/-- With positive fuel, `Nat.toDigitsCore` in base 10 always yields a list
headed by a digit character. -/
theorem toDigitsCore_ten_shape (fuel : Nat) :
    ∀ (n : Nat) (ds : List Char), fuel ≠ 0 →
      ∃ k rest, k < 10 ∧ Nat.toDigitsCore 10 fuel n ds = Nat.digitChar k :: rest := by
  induction fuel with
  | zero => intro n ds h; exact absurd rfl h
  | succ fuel ih =>
    intro n ds _
    rw [Nat.toDigitsCore]
    by_cases h10 : n / 10 = 0
    · simp only [h10, if_pos]
      exact ⟨n % 10, ds, Nat.mod_lt _ (by norm_num), by simp⟩
    · simp only [h10, if_neg, ite_false]
      by_cases hf : fuel = 0
      · subst hf
        exact ⟨n % 10, ds, Nat.mod_lt _ (by norm_num), rfl⟩
      · exact ih (n / 10) (Nat.digitChar (n % 10) :: ds) hf

/-- The decimal rendering of a natural number starts with a digit. -/
theorem repr_head_digit (n : Nat) :
    ∃ k rest, k < 10 ∧ (Nat.repr n).data = Nat.digitChar k :: rest :=
  toDigitsCore_ten_shape (n + 1) n [] (Nat.succ_ne_zero n)

/-- A string that starts with a decimal number is never `NOW ACTIVE`. -/
theorem repr_append_ne_nowActive (n : Nat) (t : String) :
    Nat.repr n ++ t ≠ "NOW ACTIVE" := by
  intro h
  obtain ⟨k, rest, hk, hd⟩ := repr_head_digit n
  have hdata := congrArg String.data h
  rw [String.data_append, hd] at hdata
  have hh : Nat.digitChar k = 'N' := by
    have := congrArg List.head? hdata
    simp at this
    exact this
  have hne : ∀ k', k' < 10 → Nat.digitChar k' ≠ 'N' := by decide
  exact hne k hk hh

/-- The plural suffix, written with the branches swapped. -/
theorem pluralS_eq (n : Nat) : pluralS n = if n = 1 then "" else "s" := by
  unfold pluralS
  by_cases h : n = 1 <;> simp [h]

/-- `hhmmss_to_text` expressed through the rounded total-minute count. -/
theorem hhmmss_to_text_eq (h m s : Nat) :
    hhmmss_to_text h m s =
      if totalMinutes h m s = 0 then "NOW ACTIVE"
      else if totalMinutes h m s < 60 then
        Nat.repr (totalMinutes h m s) ++ " minute" ++ pluralS (totalMinutes h m s)
      else if totalMinutes h m s % 60 = 0 then
        Nat.repr (totalMinutes h m s / 60) ++ " hour" ++ pluralS (totalMinutes h m s / 60)
      else
        Nat.repr (totalMinutes h m s / 60) ++ " hour" ++ pluralS (totalMinutes h m s / 60)
        ++ " " ++ Nat.repr (totalMinutes h m s % 60) ++ " minute"
        ++ pluralS (totalMinutes h m s % 60) := by
  have hT : h * 60 + m + (if 30 ≤ s then 1 else 0) = totalMinutes h m s := by
    unfold totalMinutes; ring_nf
  simp only [hhmmss_to_text, hT, Nat.le_zero]

/-- Every output of `hhmmss_to_text` is `NOW ACTIVE` or one of the three
relative remaining-time forms. -/
theorem hhmmss_to_text_forms (h m s : Nat) :
    hhmmss_to_text h m s = "NOW ACTIVE" ∨ isRelativeTimeText (hhmmss_to_text h m s) := by
  rw [hhmmss_to_text_eq]
  by_cases hT0 : totalMinutes h m s = 0
  · left; rw [if_pos hT0]
  · right
    rw [if_neg hT0]
    by_cases h60 : totalMinutes h m s < 60
    · rw [if_pos h60]
      exact Or.inl ⟨totalMinutes h m s, by omega, h60, rfl⟩
    · rw [if_neg h60]
      by_cases hmod : totalMinutes h m s % 60 = 0
      · rw [if_pos hmod]
        exact Or.inr (Or.inl ⟨totalMinutes h m s / 60, by omega, rfl⟩)
      · rw [if_neg hmod]
        exact Or.inr (Or.inr ⟨totalMinutes h m s / 60, totalMinutes h m s % 60,
          by omega, by omega, by omega, rfl⟩)

/-- Every pair produced by the conversion loop of `scrape_events` has a
status equal to `NOW ACTIVE` or to a relative remaining-time text that
`hhmmss_to_text` produced. -/
theorem scrape_events_status_forms (items : List Item) :
    ∀ p ∈ scrape_events items,
      p.2 = "NOW ACTIVE" ∨
      ((∃ h m s, p.2 = hhmmss_to_text h m s) ∧ isRelativeTimeText p.2) := by
  induction items with
  | nil => intro p hp; simp [scrape_events] at hp
  | cons it rest ih =>
    intro p hp
    by_cases ha : it.active
    · rw [scrape_events, if_pos ha] at hp
      rcases List.mem_cons.mp hp with h1 | h2
      · left; rw [h1]
      · exact ih p h2
    · rw [scrape_events, if_neg ha] at hp
      rcases hm : it.hhmmss with _ | ⟨⟨h, m, s⟩⟩
      · rw [hm] at hp
        exact ih p hp
      · rw [hm] at hp
        rcases List.mem_cons.mp hp with h1 | h2
        · rcases hhmmss_to_text_forms h m s with hA | hR
          · left; rw [h1]; exact hA
          · right
            rw [h1]
            exact ⟨⟨h, m, s, rfl⟩, hR⟩
        · exact ih p h2

/-- An item that is not active and carries no `hh:mm:ss` time is skipped by
the conversion loop: deleting it anywhere in the list leaves the output
unchanged. -/
theorem scrape_events_skip_unparseable (pre post : List Item) (it : Item)
    (ha : it.active = false) (hh : it.hhmmss = none) :
    scrape_events (pre ++ it :: post) = scrape_events (pre ++ post) := by
  induction pre with
  | nil => simp [scrape_events, ha, hh]
  | cons a pre ih =>
    simp only [List.cons_append, scrape_events, List.append_eq, ih]

/-!
## The claims
-/

/-- C1: every `(name, status)` pair returned by the conversion loop of
`scrape_events` has a status that is either `NOW ACTIVE` or a relative
remaining-time text produced by `hhmmss_to_text` (`X minute(s)`,
`H hour(s)`, or `H hour(s) M minute(s)`; never an absolute time), and an
item carrying neither an active flag nor an `hh:mm:ss` time contributes no
pair at all. -/
theorem C1_scrape_events_status_shape (items pre post : List Item) (it : Item) :
    (∀ p ∈ scrape_events items,
       p.2 = "NOW ACTIVE" ∨
       ((∃ h m s, p.2 = hhmmss_to_text h m s) ∧ isRelativeTimeText p.2)) ∧
    (it.active = false → it.hhmmss = none →
       scrape_events (pre ++ it :: post) = scrape_events (pre ++ post)) :=
  ⟨scrape_events_status_forms items, scrape_events_skip_unparseable pre post it⟩

/-- C2: for `s ≤ 59` and `T = 60*h + m + (1 if s ≥ 30 else 0)`,
`hhmmss_to_text h m s` is `NOW ACTIVE` exactly when `T = 0`, is
`T minute(s)` for `1 ≤ T < 60`, is `T/60 hour(s)` for `T ≥ 60` divisible
by 60, and is `T/60 hour(s) T%60 minute(s)` otherwise, with the singular
noun exactly at count 1. -/
theorem C2_hhmmss_to_text_total_minutes (h m s : Nat) (hs : s ≤ 59) :
    (hhmmss_to_text h m s = "NOW ACTIVE" ↔ totalMinutes h m s = 0) ∧
    (1 ≤ totalMinutes h m s → totalMinutes h m s < 60 →
      hhmmss_to_text h m s =
        Nat.repr (totalMinutes h m s) ++ " minute"
        ++ (if totalMinutes h m s = 1 then "" else "s")) ∧
    (60 ≤ totalMinutes h m s → totalMinutes h m s % 60 = 0 →
      hhmmss_to_text h m s =
        Nat.repr (totalMinutes h m s / 60) ++ " hour"
        ++ (if totalMinutes h m s / 60 = 1 then "" else "s")) ∧
    (60 ≤ totalMinutes h m s → totalMinutes h m s % 60 ≠ 0 →
      hhmmss_to_text h m s =
        Nat.repr (totalMinutes h m s / 60) ++ " hour"
        ++ (if totalMinutes h m s / 60 = 1 then "" else "s")
        ++ " " ++ Nat.repr (totalMinutes h m s % 60) ++ " minute"
        ++ (if totalMinutes h m s % 60 = 1 then "" else "s")) := by
  rw [hhmmss_to_text_eq]
  refine ⟨⟨?_, ?_⟩, ?_, ?_, ?_⟩
  · intro hEq
    by_contra hT0
    rw [if_neg hT0] at hEq
    by_cases h60 : totalMinutes h m s < 60
    · rw [if_pos h60] at hEq
      rw [String.append_assoc] at hEq
      exact repr_append_ne_nowActive _ _ hEq
    · rw [if_neg h60] at hEq
      by_cases hmod : totalMinutes h m s % 60 = 0
      · rw [if_pos hmod] at hEq
        rw [String.append_assoc] at hEq
        exact repr_append_ne_nowActive _ _ hEq
      · rw [if_neg hmod] at hEq
        simp only [String.append_assoc] at hEq
        exact repr_append_ne_nowActive _ _ hEq
  · intro hT0
    rw [if_pos hT0]
  · intro h1 h60
    rw [if_neg (by omega : ¬ totalMinutes h m s = 0), if_pos h60, pluralS_eq]
  · intro h60 hmod
    rw [if_neg (by omega : ¬ totalMinutes h m s = 0),
        if_neg (by omega : ¬ totalMinutes h m s < 60), if_pos hmod, pluralS_eq]
  · intro h60 hmod
    rw [if_neg (by omega : ¬ totalMinutes h m s = 0),
        if_neg (by omega : ¬ totalMinutes h m s < 60), if_neg hmod]
    simp only [pluralS_eq]

/-- Witness for C2 at `h = 1`, `m = 5`, `s = 45` (`T = 66`). -/
theorem C2_total_minutes_witness :
    hhmmss_to_text 1 5 45 = "NOW ACTIVE" ↔ totalMinutes 1 5 45 = 0 :=
  (C2_hhmmss_to_text_total_minutes 1 5 45 (by decide)).1

/-- C3 counterexample: the conversion loop does not filter names.  An
active item whose name field is whitespace-only yields a pair whose name
is the empty string, so the non-empty-name invariant fails on it. -/
theorem C3_empty_name_counterexample :
    scrape_events [{ name := "   ", hhmmss := none, active := true }] =
      [("", "NOW ACTIVE")] := by decide

/-- C3 (amended): the conversion loop of `scrape_events` keeps each item's
stripped name unchanged, so every returned pair has a non-empty name
provided every incoming item's name is non-empty after stripping;
items with missing, empty or whitespace-only names are not filtered out
and yield pairs with empty names. -/
theorem C3_name_nonempty_of_items_named (items : List Item)
    (hn : ∀ it ∈ items, pyStrip it.name ≠ "") :
    ∀ p ∈ scrape_events items, p.1 ≠ "" := by
  induction items with
  | nil => intro p hp; simp [scrape_events] at hp
  | cons it rest ih =>
    have hit := hn it (List.mem_cons_self it rest)
    have hrest : ∀ a ∈ rest, pyStrip a.name ≠ "" := fun a ha =>
      hn a (List.mem_cons_of_mem it ha)
    intro p hp
    by_cases ha : it.active
    · rw [scrape_events, if_pos ha] at hp
      rcases List.mem_cons.mp hp with h1 | h2
      · rw [h1]; exact hit
      · exact ih hrest p h2
    · rw [scrape_events, if_neg ha] at hp
      rcases hm : it.hhmmss with _ | ⟨⟨h, m, s⟩⟩
      · rw [hm] at hp; exact ih hrest p hp
      · rw [hm] at hp
        rcases List.mem_cons.mp hp with h1 | h2
        · rw [h1]; exact hit
        · exact ih hrest p h2

/-- Witness for C3 (amended) on a single active, properly named item. -/
theorem C3_name_nonempty_witness : ("Raffle Event", "NOW ACTIVE").1 ≠ "" :=
  C3_name_nonempty_of_items_named
    [{ name := "Raffle Event", hhmmss := none, active := true }]
    (by decide) ("Raffle Event", "NOW ACTIVE") (by decide)

/-- C4 counterexample: a run whose webhook POST fails with an HTTP error.
The script writes nothing to standard output — `stdout` is empty — and the
error simply propagates out of `main`; no error message precedes it. -/
theorem C4_silent_failure_counterexample :
    (main "https://discord.example/webhook" (Except.ok [])
        (fun _ => Except.error "HTTP Error 400: Bad Request")).stdout = [] ∧
    (main "https://discord.example/webhook" (Except.ok [])
        (fun _ => Except.error "HTTP Error 400: Bad Request")).outcome =
      Except.error "HTTP Error 400: Bad Request" :=
  ⟨rfl, rfl⟩

/-- C4 (amended): the script never writes to standard output — it contains
no print call and no exception handler — and every failure (a scrape
exception or an HTTP error from the webhook POST) propagates out of `main`
unchanged, so the process exits non-zero via the unhandled exception. -/
theorem C4_no_stdout_error_propagates (url : String)
    (scrapeRes : Except String (List Item))
    (postRes : String → Except String Unit) :
    (main url scrapeRes postRes).stdout = [] ∧
    (∀ e, scrapeRes = Except.error e →
       (main url scrapeRes postRes).outcome = Except.error e) ∧
    (∀ items e, scrapeRes = Except.ok items →
       postRes (build_embed_lines ((scrape_events items).take 10)) = Except.error e →
       (main url scrapeRes postRes).outcome = Except.error e) := by
  refine ⟨?_, ?_, ?_⟩
  · cases scrapeRes <;> rfl
  · intro e he; subst he; rfl
  · intro items e he hp
    subst he
    simp only [main]
    exact hp

/-- C5: `post_webhook url d` issues exactly one HTTP POST; its JSON body
is an `embeds` array holding a single embed whose `title` is the constant
`TITLE`, whose `description` is `d`, whose `footer` object has a `text`
field, and which carries no `timestamp` field. -/
theorem C5_post_webhook_single_embed (url d : String) :
    (post_webhook url d).length = 1 ∧
    ∀ r ∈ post_webhook url d,
      r.method = "POST" ∧ r.url = url ∧
      r.body = JVal.obj [("embeds", JVal.arr [embedObj d])] ∧
      (embedObj d).lookup "title" = some (JVal.str TITLE) ∧
      (embedObj d).lookup "description" = some (JVal.str d) ∧
      (embedObj d).lookup "footer" = some (JVal.obj [("text", JVal.str footerText)]) ∧
      (JVal.obj [("text", JVal.str footerText)]).lookup "text"
        = some (JVal.str footerText) ∧
      (embedObj d).lookup "timestamp" = none := by
  refine ⟨rfl, ?_⟩
  intro r hr
  have hr' : r = { url := url, method := "POST",
                   headers := [("Content-Type", "application/json")],
                   body := JVal.obj [("embeds", JVal.arr [embedObj d])] } := by
    simpa [post_webhook] using hr
  subst hr'
  exact ⟨rfl, rfl, rfl, rfl, rfl, rfl, rfl, rfl⟩

/-- C6: on a successful run, `main` is the linear pipeline
scrape-then-format-then-deliver: the trace is exactly one scrape step, one
format step and one deliver step in that order, the formatted description
is `build_embed_lines` of the first ten scraped pairs, and the delivered
request (the last step) carries exactly that description in its embed. -/
theorem C6_main_pipeline_order (url : String) (items : List Item)
    (postRes : String → Except String Unit) :
    (main url (Except.ok items) postRes).trace.map MainStep.kind =
      [StepKind.scrape, StepKind.format, StepKind.deliver] ∧
    (main url (Except.ok items) postRes).trace.get? 0 =
      some (MainStep.scraped (scrape_events items)) ∧
    (main url (Except.ok items) postRes).trace.get? 1 =
      some (MainStep.formatted (build_embed_lines ((scrape_events items).take 10))) ∧
    ∃ r, (main url (Except.ok items) postRes).trace.getLast? =
        some (MainStep.delivered r) ∧
      Request.description r =
        some (JVal.str (build_embed_lines ((scrape_events items).take 10))) := by
  refine ⟨rfl, rfl, rfl, ?_⟩
  exact ⟨_, rfl, rfl⟩

/-- C7: the description `main` formats and delivers is built from at most
the first ten scraped events, in scraped order: the capped list agrees
with the scraped list below index 10, holds nothing at index 10 or
beyond, and equals the whole scraped list whenever at most ten events
were scraped. -/
theorem C7_description_caps_at_ten (url : String) (items : List Item)
    (postRes : String → Except String Unit) :
    (main url (Except.ok items) postRes).trace.get? 1 =
      some (MainStep.formatted (build_embed_lines ((scrape_events items).take 10))) ∧
    ((scrape_events items).take 10).length = min 10 (scrape_events items).length ∧
    (∀ i, 10 ≤ i → ((scrape_events items).take 10).get? i = none) ∧
    (∀ i, i < 10 →
      ((scrape_events items).take 10).get? i = (scrape_events items).get? i) ∧
    ((scrape_events items).length ≤ 10 →
      (scrape_events items).take 10 = scrape_events items) := by
  refine ⟨rfl, by rw [List.length_take], ?_, ?_, ?_⟩
  · intro i hi
    refine List.get?_eq_none.mpr ?_
    have := List.length_take 10 (scrape_events items)
    omega
  · intro i hi
    exact List.get?_take hi
  · exact fun hlen => List.take_of_length_le hlen

/-- The bullet line of a pair starts with the bullet character. -/
theorem eventLine_head (p : String × String) :
    (eventLine p).data.head? = some '•' := by
  have h2 : ("• " : String).data = ['•', ' '] := by decide
  simp [eventLine, String.data_append, h2]

/-- Joining a non-empty list of strings keeps the head character of the
first string. -/
theorem joinStr_cons_head (sep : String) (x : String) (ls : List String)
    (c : Char) (hx : x.data.head? = some c) :
    (joinStr sep (x :: ls)).data.head? = some c := by
  cases ls with
  | nil => simpa [joinStr] using hx
  | cons y t =>
    cases hd : x.data with
    | nil => rw [hd] at hx; simp at hx
    | cons a l =>
      rw [hd] at hx
      simp only [List.head?_cons, Option.some.injEq] at hx
      subst hx
      simp [joinStr, String.data_append, hd]

/-- A non-empty event list never formats to the `No events found.`
placeholder: its rendering starts with a bullet, not with an `N`. -/
theorem build_embed_lines_cons_ne (p : String × String)
    (rest : List (String × String)) :
    build_embed_lines (p :: rest) ≠ "No events found." := by
  intro h
  have hhead : (build_embed_lines (p :: rest)).data.head? = some '•' := by
    rw [build_embed_lines]
    simp only [List.isEmpty_cons, Bool.false_eq_true, if_false, List.map_cons]
    exact joinStr_cons_head "\n" (eventLine p) (rest.map eventLine) '•' (eventLine_head p)
  rw [h] at hhead
  have hN : ("No events found." : String).data.head? = some 'N' := by decide
  rw [hN] at hhead
  simp at hhead

/-- Joining newline-free strings with `\n` yields one line per string. -/
theorem joinStr_count_newline (l : List String)
    (hl : ∀ x ∈ l, x.data.count '\n' = 0) (hne : l ≠ []) :
    (joinStr "\n" l).data.count '\n' + 1 = l.length := by
  induction l with
  | nil => exact absurd rfl hne
  | cons x ls ih =>
    cases ls with
    | nil =>
      simp [joinStr, hl x (List.mem_cons_self x [])]
    | cons y t =>
      have hx := hl x (List.mem_cons_self x (y :: t))
      have hrest : ∀ a ∈ y :: t, a.data.count '\n' = 0 := fun a ha =>
        hl a (List.mem_cons_of_mem x ha)
      have hih := ih hrest (by simp)
      have hnl : ("\n" : String).data = ['\n'] := by decide
      simp only [joinStr, String.data_append, hnl, List.count_append]
      simp only [List.length_cons] at hih ⊢
      simp [hx]
      omega

/-- A bullet line of a newline-free pair contains no newline. -/
theorem eventLine_count_newline (p : String × String)
    (h1 : p.1.data.count '\n' = 0) (h2 : p.2.data.count '\n' = 0) :
    (eventLine p).data.count '\n' = 0 := by
  have hb : ("• " : String).data.count '\n' = 0 := by decide
  have hc : (" : " : String).data.count '\n' = 0 := by decide
  simp [eventLine, String.data_append, List.count_append, hb, hc, h1, h2]

/-- C8: `build_embed_lines` returns `No events found.` exactly on the
empty list; on a non-empty list it joins one bullet line per pair with
newlines, in input order, so (for newline-free names and statuses) the
number of lines of the result equals the length of the input list. -/
theorem C8_build_embed_lines_shape (events : List (String × String)) :
    (build_embed_lines events = "No events found." ↔ events = []) ∧
    (events ≠ [] → build_embed_lines events = joinStr "\n" (events.map eventLine)) ∧
    (∀ i, (events.map eventLine).get? i = (events.get? i).map eventLine) ∧
    (events.map eventLine).length = events.length ∧
    (events ≠ [] →
      (∀ p ∈ events, p.1.data.count '\n' = 0 ∧ p.2.data.count '\n' = 0) →
      (build_embed_lines events).data.count '\n' + 1 = events.length) := by
  refine ⟨⟨?_, ?_⟩, ?_, ?_, ?_, ?_⟩
  · intro h
    cases events with
    | nil => rfl
    | cons p rest => exact absurd h (build_embed_lines_cons_ne p rest)
  · intro h
    subst h
    rfl
  · intro hne
    cases events with
    | nil => exact absurd rfl hne
    | cons p rest =>
      rw [build_embed_lines]
      simp only [List.isEmpty_cons, Bool.false_eq_true, if_false]
  · intro i
    exact List.get?_map eventLine events i
  · exact List.length_map events eventLine
  · intro hne hnl
    cases events with
    | nil => exact absurd rfl hne
    | cons p rest =>
      have hcnt : ∀ x ∈ (p :: rest).map eventLine, x.data.count '\n' = 0 := by
        intro x hx
        obtain ⟨q, hq, rfl⟩ := List.mem_map.mp hx
        exact eventLine_count_newline q (hnl q hq).1 (hnl q hq).2
      have hj := joinStr_count_newline ((p :: rest).map eventLine) hcnt (by simp)
      rw [build_embed_lines]
      simp only [List.isEmpty_cons, Bool.false_eq_true, if_false]
      simpa using hj

/-- C9 counterexample: the awaited sequence of `scrape_events` contains no
fixed settle delay at all — between page load and text extraction it
awaits the presence of the `UPCOMING EVENTS` text, a conditional selector
wait, not a fixed-duration sleep. -/
theorem C9_no_fixed_delay_counterexample :
    ((scrape_events_steps "https://ko4fun.net/Features/EventSchedule").filter
        ScrapeStep.isFixedDelay).length = 0 ∧
    (scrape_events_steps "https://ko4fun.net/Features/EventSchedule").get? 3 =
      some (ScrapeStep.waitForText "UPCOMING EVENTS" 60000) :=
  ⟨rfl, rfl⟩

/-- C9 (amended): the step sequence of `scrape_events` is launch headless
browser, open page, await page load (60 s timeout), await the presence of
the `UPCOMING EVENTS` header text (60 s timeout, a selector wait rather
than a fixed settle delay), extract the items, close the browser. -/
theorem C9_scrape_step_sequence (url : String) :
    (scrape_events_steps url).filter ScrapeStep.isFixedDelay = [] ∧
    (scrape_events_steps url).get? 0 = some ScrapeStep.launchBrowser ∧
    (scrape_events_steps url).get? 2 = some (ScrapeStep.gotoPage url 60000) ∧
    (scrape_events_steps url).get? 3 =
      some (ScrapeStep.waitForText "UPCOMING EVENTS" 60000) ∧
    (scrape_events_steps url).get? 4 = some ScrapeStep.evaluateItems ∧
    (scrape_events_steps url).getLast? = some ScrapeStep.closeBrowser ∧
    (scrape_events_steps url).length = 6 :=
  ⟨rfl, rfl, rfl, rfl, rfl, rfl, rfl⟩

/-- C10: a failing step aborts the run: the trace never repeats a pipeline
stage; when the scrape fails nothing at all runs (no format, no delivery)
and the error propagates; when the webhook POST fails the error
propagates as the outcome with no retry. -/
theorem C10_failure_aborts_run (url : String)
    (scrapeRes : Except String (List Item))
    (postRes : String → Except String Unit) :
    ((main url scrapeRes postRes).trace.map MainStep.kind).Nodup ∧
    (∀ e, scrapeRes = Except.error e →
       (main url scrapeRes postRes).outcome = Except.error e ∧
       (main url scrapeRes postRes).trace = []) ∧
    (∀ items, scrapeRes = Except.ok items →
       (main url scrapeRes postRes).trace.map MainStep.kind =
         [StepKind.scrape, StepKind.format, StepKind.deliver] ∧
       ∀ e, postRes (build_embed_lines ((scrape_events items).take 10)) =
           Except.error e →
         (main url scrapeRes postRes).outcome = Except.error e) := by
  refine ⟨?_, ?_, ?_⟩
  · cases scrapeRes with
    | error e => simp [main]
    | ok items =>
      have hk : (main url (Except.ok items) postRes).trace.map MainStep.kind =
          [StepKind.scrape, StepKind.format, StepKind.deliver] := rfl
      rw [hk]
      decide
  · intro e he
    subst he
    exact ⟨rfl, rfl⟩
  · intro items he
    subst he
    refine ⟨rfl, ?_⟩
    intro e hp
    simp only [main]
    exact hp

end KoEvents
